import Mathlib

/-!
Verification development for the product-scraping repository
(`src/cpuhardware.py`, `src/laptopexcel.py`).

The matching engine of `cpuhardware.py` (class `ProductMatcher`) and the
specification extractors of `cpuhardware.py` / `laptopexcel.py` are embedded
shallowly:

* Python floats are modelled as exact rationals (`ℚ`);
* Python strings are Lean `String`s, with all text processing implemented
  over `List Char` so that terms are kernel-reducible;
* the external library function `rapidfuzz.fuzz.token_set_ratio` is an
  abstract parameter `ratio : String → String → ℚ` of every function that
  uses it;
* fallible code (`json.loads`, the catalog read, `float(...)`) is modelled
  with `Except` / `Option`;
* the regular-expression character classes `\d`, `\s`, `\w` are modelled
  over the scripts that occur in this repository (ASCII plus the
  Arabic-Indic digits and the Arabic letter block), and `str.lower()` is
  modelled as ASCII lowercasing, which covers every cased character in the
  patterns actually used;
* each regular expression of the two spec extractors is embedded as a
  deterministic leftmost scanner; for these particular patterns the
  deterministic scan coincides with Python's backtracking search, because
  after shortening a greedy repetition the next required character class
  can never match (each repetition is over `\d`, `\s` or `\w` and is
  followed by a character outside that class).
-/

namespace Scraping

/-- Character class `\d` of the Python patterns, over the scripts used by the
repository: ASCII digits and Arabic-Indic digits. -/
def isDigitPy (c : Char) : Bool :=
  c.isDigit || (0x660 ≤ c.toNat && c.toNat ≤ 0x669)

/-- Character class `\s` of the Python patterns (ASCII whitespace). -/
def isSpacePy (c : Char) : Bool :=
  c.isWhitespace

/-- Character class `\w` of the Python patterns, over the scripts used by the
repository: ASCII alphanumerics, underscore, Arabic letters, Arabic-Indic
digits. -/
def isWordPy (c : Char) : Bool :=
  c.isAlphanum || c == '_' ||
  (0x620 ≤ c.toNat && c.toNat ≤ 0x64A) ||
  (0x660 ≤ c.toNat && c.toNat ≤ 0x669)

/-- Numeric value of a digit character (ASCII or Arabic-Indic). -/
def digitVal (c : Char) : Nat :=
  if c.isDigit then c.toNat - 48 else c.toNat - 0x660

/-- Decimal value of a digit string, as read by Python `float`. -/
def digitsVal (l : List Char) : Nat :=
  l.foldl (fun a c => a * 10 + digitVal c) 0

/-- Embedding of Python `str.lower()` (ASCII case folding). -/
def pyLower (s : String) : String :=
  (s.data.map Char.toLower).asString

/-- Embedding of Python `str.strip()`: remove leading and trailing
whitespace. -/
def pyStrip (s : String) : String :=
  (((s.data.dropWhile isSpacePy).reverse.dropWhile isSpacePy).reverse).asString

/-- Helper for `pySubNonWord`: the boolean records whether the previous
character belonged to a non-word run that was already replaced by one
space. -/
def subNWAux : Bool → List Char → List Char
  | _, [] => []
  | prev, c :: t =>
    if isWordPy c then c :: subNWAux false t
    else if prev then subNWAux true t
    else ' ' :: subNWAux true t

/-- Embedding of `re.sub(r'\W+', ' ', s)` from `ProductMatcher.normalize_text`
(`cpuhardware.py` line 189): every maximal run of non-word characters is
replaced by a single space. -/
def pySubNonWord (s : String) : String :=
  (subNWAux false s.data).asString

/-- Helper producing the decimal digits of a positive natural number; the
first argument is fuel (the number strictly decreases at each step). -/
def natToCharsAux : Nat → Nat → List Char → List Char
  | 0, _, acc => acc
  | fuel + 1, n, acc =>
    if n = 0 then acc
    else natToCharsAux fuel (n / 10) (Char.ofNat (48 + n % 10) :: acc)

/-- Decimal rendering of a natural number, as Python `str` does. -/
def natToString (n : Nat) : String :=
  if n = 0 then "0" else (natToCharsAux (n + 1) n []).asString

/-- Decimal rendering of an integer, as Python `str` does. -/
def intToString : Int → String
  | .ofNat n => natToString n
  | .negSucc n => "-" ++ natToString (n + 1)

/-- The Python values that can reach `ProductMatcher.normalize_text` in this
repository: `None`, strings, and integers (attribute values decoded from
JSON may be numbers). -/
inductive PyVal where
  | none : PyVal
  | str : String → PyVal
  | int : Int → PyVal
deriving DecidableEq

/-- Python truthiness test `not text` used by `normalize_text`
(`cpuhardware.py` line 186): `None`, the empty string and the integer `0`
are falsy. -/
def pyFalsy : PyVal → Bool
  | .none => true
  | .str s => s = ""
  | .int n => n = 0

/-- Embedding of Python `str(...)` on the modelled values. -/
def pyStr : PyVal → String
  | .none => "None"
  | .str s => s
  | .int n => intToString n

/-- View an optional string (a value that may be Python `None`) as a
`PyVal`. -/
def pvOfOpt : Option String → PyVal
  | Option.none => .none
  | Option.some s => .str s

/-- Embedding of `ProductMatcher.normalize_text` (`cpuhardware.py` lines
176-189): falsy input gives `""`; otherwise the value is coerced to a
string, lowercased, stripped, and every non-word run is collapsed to one
space. -/
def normalize_text (t : PyVal) : String :=
  if pyFalsy t then "" else pySubNonWord (pyStrip (pyLower (pyStr t)))

/-- Embedding of `re.sub(r'[^\d.]', '', s)` from
`ProductMatcher.calculate_price_similarity` (`cpuhardware.py` lines
239-240): keep only digits and dots. -/
def strip_price_chars (s : String) : String :=
  (s.data.filter (fun c => isDigitPy c || c == '.')).asString

/-- Split a character list at every dot. -/
def splitDotAux : List Char → List Char → List (List Char)
  | [], cur => [cur.reverse]
  | c :: t, cur =>
    if c = '.' then cur.reverse :: splitDotAux t [] else splitDotAux t (c :: cur)

/-- Split a character list at every dot, from the left. -/
def splitDot (l : List Char) : List (List Char) :=
  splitDotAux l []

/-- Embedding of Python `float(...)` on strings made of digits and dots
(the only inputs it receives in `calculate_price_similarity`, after
`strip_price_chars`): at most one dot and at least one digit are required,
otherwise `ValueError` (`Option.none` here). -/
def pyFloatParse (s : String) : Option ℚ :=
  match splitDot s.data with
  | [ds] =>
    if !ds.isEmpty && ds.all isDigitPy then some ((digitsVal ds : Nat) : ℚ)
    else none
  | [ip, fp] =>
    if !(ip ++ fp).isEmpty && (ip ++ fp).all isDigitPy then
      some (((digitsVal ip : Nat) : ℚ) + ((digitsVal fp : Nat) : ℚ) / (10 : ℚ) ^ fp.length)
    else none
  | _ => none

/-- Embedding of Python `str(...)` on an optional price string: `None`
renders as `"None"` (which then fails to parse as a number). -/
def pyStrOfOpt : Option String → String
  | Option.none => "None"
  | Option.some s => s

/-- The numeric value a price string is given by `calculate_price_similarity`:
coerce to `str`, strip non-numeric characters, parse as a decimal. -/
def pyParsePrice (p : Option String) : Option ℚ :=
  pyFloatParse (strip_price_chars (pyStrOfOpt p))

/-- Embedding of `ProductMatcher.calculate_price_similarity` (`cpuhardware.py`
lines 227-245).  Both prices are parsed; parse failure on either side is the
Python `ValueError` path and yields 0.  The divisor is `db_price or 1`,
i.e. the catalog price when it is nonzero and 1 otherwise. -/
def calculate_price_similarity (scraped_price db_price : Option String) : ℚ :=
  match pyParsePrice scraped_price, pyParsePrice db_price with
  | some s, some d =>
    max 0 (100 - |s - d| / (if d = 0 then 1 else d) * 100)
  | _, _ => 0

/-- The price-similarity formula exactly as the specification document words
it, with divisor `max(catalog, 1)`; stated here only to be compared with
`calculate_price_similarity`. -/
def price_similarity_spec_formula (s c : ℚ) : ℚ :=
  max 0 (100 - |s - c| / max c 1 * 100)

/-- Drop JSON/pattern whitespace. -/
def skipWS (l : List Char) : List Char :=
  l.dropWhile isSpacePy

/-- Helper scanning the body of a JSON string literal (no escape
sequences; the repository serializes spec maps with `json.dumps` of plain
alphanumeric keys and values). -/
def jStringAux : List Char → List Char → Option (String × List Char)
  | [], _ => Option.none
  | c :: t, acc =>
    if c = '"' then Option.some (acc.reverse.asString, t)
    else if c = '\\' then Option.none
    else jStringAux t (c :: acc)

/-- Scan a JSON string literal. -/
def jString : List Char → Option (String × List Char)
  | '"' :: t => jStringAux t []
  | _ => Option.none

/-- Python-dict insertion: an existing key keeps its position and gets the
new value, a new key is appended at the end. -/
def dictInsert (k v : String) : List (String × String) → List (String × String)
  | [] => [(k, v)]
  | (k1, v1) :: t =>
    if k1 = k then (k1, v) :: t else (k1, v1) :: dictInsert k v t

/-- Lookup in an association list modelling a Python dict. -/
def assocLookup (k : String) : List (String × String) → Option String
  | [] => Option.none
  | (k1, v) :: t => if k1 = k then Option.some v else assocLookup k t

/-- Member loop of the flat-object JSON parser; the first argument is fuel
bounding the number of members. -/
def jsonMembersAux : Nat → List Char → List (String × String) →
    Except String (List (String × String))
  | 0, _, _ => .error "json"
  | fuel + 1, l, acc =>
    match jString l with
    | Option.none => .error "json"
    | Option.some (k, r1) =>
      match skipWS r1 with
      | ':' :: r2 =>
        match jString (skipWS r2) with
        | Option.none => .error "json"
        | Option.some (v, r3) =>
          match skipWS r3 with
          | ',' :: r4 => jsonMembersAux fuel (skipWS r4) (dictInsert k v acc)
          | '}' :: r4 =>
            if (skipWS r4).isEmpty then .ok (dictInsert k v acc)
            else .error "json"
          | _ => .error "json"
      | _ => .error "json"

/-- Embedding of `json.loads` restricted to the inputs this repository
serializes: flat JSON objects mapping strings to strings, without escape
sequences (`laptopexcel.py` line 155 writes them with `json.dumps`).  Any
other input is a parse failure, which models the `json.JSONDecodeError`
raised inside `calculate_similarity_score`. -/
def jsonLoadsFlat (s : String) : Except String (List (String × String)) :=
  match skipWS s.data with
  | '{' :: r1 =>
    match skipWS r1 with
    | '}' :: r2 => if (skipWS r2).isEmpty then .ok [] else .error "json"
    | r2 => jsonMembersAux (r2.length + 1) r2 []
  | _ => .error "json"

/-- A scraped product as handed to the matcher: the fields
`ProductMatcher` reads (`name`, `price`, `specs`); `link` and
`description` are never consulted by the engine.  `name` and `price` may be
Python `None`. -/
structure ScrapedProduct where
  name : Option String
  price : Option String
  specs : List (String × String)
deriving DecidableEq

/-- A catalog row as returned by the database read: `name` and `price` may
be SQL NULL, and `specs` is a serialized attribute map (or NULL). -/
structure CatalogEntry where
  name : Option String
  price : Option String
  specs : Option String
deriving DecidableEq

/-- One step of the inner loop of `calculate_spec_similarity`
(`cpuhardware.py` lines 211-220): a catalog attribute updates the running
best only when its normalized label is more than 80 similar to the scraped
label. -/
def specStep (ratio : String → String → ℚ) (nk nv : String)
    (best : ℚ) (dkv : String × String) : ℚ :=
  if 80 < ratio nk (normalize_text (.str dkv.1)) then
    max best (ratio nv (normalize_text (.str dkv.2)))
  else best

/-- Inner loop of `ProductMatcher.calculate_spec_similarity` (`cpuhardware.py`
lines 210-220): the running best value-similarity over catalog attributes
whose normalized label is more than 80 similar to the scraped label. -/
def specAttrBest (ratio : String → String → ℚ) (nk nv : String)
    (db_specs : List (String × String)) : ℚ :=
  db_specs.foldl (specStep ratio nk nv) 0

/-- Embedding of `ProductMatcher.calculate_spec_similarity` (`cpuhardware.py`
lines 191-225). -/
def calculate_spec_similarity (ratio : String → String → ℚ)
    (scraped_specs db_specs : List (String × String)) : ℚ :=
  if scraped_specs.isEmpty || db_specs.isEmpty then 0
  else
    let match_scores := scraped_specs.map (fun kv =>
      specAttrBest ratio (normalize_text (.str kv.1)) (normalize_text (.str kv.2)) db_specs)
    match_scores.sum / (match_scores.length : ℚ)

/-- Deserialization of a catalog row's spec field, as
`calculate_similarity_score` does it (`cpuhardware.py` line 267): a falsy
field gives the empty map, otherwise `json.loads` runs and may fail. -/
def db_specs_of (dp : CatalogEntry) : Except String (List (String × String)) :=
  match dp.specs with
  | Option.none => .ok []
  | Option.some s => if s = "" then .ok [] else jsonLoadsFlat s

/-- Name similarity of `calculate_similarity_score` (`cpuhardware.py` lines
259-263): the token-set ratio of the normalized names. -/
def name_similarity (ratio : String → String → ℚ)
    (sp : ScrapedProduct) (dp : CatalogEntry) : ℚ :=
  ratio (normalize_text (pvOfOpt sp.name)) (normalize_text (pvOfOpt dp.name))

/-- The weighted combination of `calculate_similarity_score` (`cpuhardware.py`
lines 274-278). -/
def weighted_total (n s p : ℚ) : ℚ :=
  n * (1 / 2) + s * (3 / 10) + p * (1 / 5)

/-- Embedding of `ProductMatcher.calculate_similarity_score` (`cpuhardware.py`
lines 247-280).  The only fallible step is deserializing the catalog row's
specs; its exception propagates to the caller. -/
def calculate_similarity_score (ratio : String → String → ℚ)
    (sp : ScrapedProduct) (dp : CatalogEntry) : Except String ℚ :=
  match db_specs_of dp with
  | .error e => .error e
  | .ok dbs =>
    .ok (weighted_total
      (name_similarity ratio sp dp)
      (calculate_spec_similarity ratio sp.specs dbs)
      (calculate_price_similarity sp.price dp.price))

/-- The comparison `matches.sort(key score, reverse)` sorts by: higher score
first. -/
def matchGE (a b : CatalogEntry × ℚ) : Prop :=
  b.2 ≤ a.2

instance : DecidableRel matchGE :=
  fun a b => inferInstanceAs (Decidable (b.2 ≤ a.2))

instance : IsTotal (CatalogEntry × ℚ) matchGE :=
  ⟨fun a b => (le_total b.2 a.2).imp id id⟩

instance : IsTrans (CatalogEntry × ℚ) matchGE :=
  ⟨fun _ _ _ h1 h2 => le_trans h2 h1⟩

/-- The candidate loop of `ProductMatcher.find_best_match` (`cpuhardware.py`
lines 299-306): score every catalog row, keep those at or above the
threshold; the first exception raised while scoring aborts the loop. -/
def buildMatches (ratio : String → String → ℚ) (sp : ScrapedProduct)
    (thr : ℚ) : List CatalogEntry → Except String (List (CatalogEntry × ℚ))
  | [] => .ok []
  | dp :: rest =>
    match calculate_similarity_score ratio sp dp with
    | .error e => .error e
    | .ok q =>
      match buildMatches ratio sp thr rest with
      | .error e => .error e
      | .ok ms => .ok (if thr ≤ q then (dp, q) :: ms else ms)

/-- The body of `ProductMatcher.find_best_match` (`cpuhardware.py` lines
293-316) before its `try/except`: read the catalog, score and filter the
candidates, sort descending by score (stably, as Python `list.sort` does),
and return the top entry annotated with its score, or none. -/
def findBestMatchBody (ratio : String → String → ℚ) (sp : ScrapedProduct)
    (thr : ℚ) (catalog : Except String (List CatalogEntry)) :
    Except String (Option (CatalogEntry × ℚ)) :=
  match catalog with
  | .error e => .error e
  | .ok prods =>
    match buildMatches ratio sp thr prods with
    | .error e => .error e
    | .ok ms =>
      match List.insertionSort matchGE ms with
      | [] => .ok Option.none
      | m :: _ => .ok (Option.some m)

/-- Embedding of `ProductMatcher.find_best_match` (`cpuhardware.py` lines
282-320): the whole body runs inside one `try/except` that logs any
exception and returns `None`. -/
def find_best_match (ratio : String → String → ℚ) (sp : ScrapedProduct)
    (thr : ℚ) (catalog : Except String (List CatalogEntry)) :
    Option (CatalogEntry × ℚ) :=
  match findBestMatchBody ratio sp thr catalog with
  | .ok r => r
  | .error _ => Option.none

/-- Default value of the `similarity_threshold` parameter of
`find_best_match` (`cpuhardware.py` line 282). -/
def default_similarity_threshold : ℚ := 70

/-- Case-insensitive literal match (regex literals under `re.IGNORECASE`);
returns the rest of the input after the literal. -/
def litCI : List Char → List Char → Option (List Char)
  | [], s => Option.some s
  | _ :: _, [] => Option.none
  | p :: ps, c :: cs => if p.toLower = c.toLower then litCI ps cs else Option.none

/-- Greedy `C+` for a character class `C`: the maximal nonempty prefix
satisfying `f`, with the rest. -/
def takeWhile1 (f : Char → Bool) (s : List Char) : Option (List Char × List Char) :=
  if (s.takeWhile f).isEmpty then Option.none
  else Option.some (s.takeWhile f, s.dropWhile f)

/-- Greedy `\s+`: at least one whitespace character, returning the rest. -/
def ws1 (s : List Char) : Option (List Char) :=
  match takeWhile1 isSpacePy s with
  | Option.some (_, r) => Option.some r
  | Option.none => Option.none

/-- Greedy `\d+(?:\.\d+)?`: digits with an optional dot-and-digits part, as
matched text plus rest.  The optional part is entered exactly when a dot
followed by a digit comes next, which coincides with Python's greedy
backtracking for this pattern. -/
def numTok (s : List Char) : Option (List Char × List Char) :=
  match takeWhile1 isDigitPy s with
  | Option.none => Option.none
  | Option.some (ds, r) =>
    match r with
    | '.' :: r2 =>
      match takeWhile1 isDigitPy r2 with
      | Option.some (fs, r3) => Option.some (ds ++ '.' :: fs, r3)
      | Option.none => Option.some (ds, r)
    | _ => Option.some (ds, r)

/-- Embedding of `re.search`: try the pattern attempt at every position from
the left and keep the first success. -/
def searchCaps {α : Type} (tryAt : List Char → Option α) : List Char → Option α
  | [] => tryAt []
  | c :: t =>
    match tryAt (c :: t) with
    | Option.some g => Option.some g
    | Option.none => searchCaps tryAt t

/-- Ordered alternation of case-insensitive literals (the alternatives of
these patterns start with pairwise distinct characters, so at most one can
apply at a position). -/
def litAlt : List (List Char) → List Char → Option (List Char)
  | [], _ => Option.none
  | p :: ps, s =>
    match litCI p s with
    | Option.some r => Option.some r
    | Option.none => litAlt ps s

/-- The text a capture group matched: the input minus the unconsumed rest,
verbatim (original case and spacing, as Python group values are). -/
def capSlice (s r : List Char) : String :=
  (s.take (s.length - r.length)).asString

/-- Attempt for `(\d+)\s*Cores?` (`cpuhardware.py` line 44) at one
position. -/
def tryCores (s : List Char) : Option String :=
  match takeWhile1 isDigitPy s with
  | Option.none => Option.none
  | Option.some (ds, r1) =>
    match litCI "core".data (skipWS r1) with
    | Option.some _ => Option.some ds.asString
    | Option.none => Option.none

/-- Attempt for `(\d+)\s*Threads?` (`cpuhardware.py` line 45) at one
position. -/
def tryThreads (s : List Char) : Option String :=
  match takeWhile1 isDigitPy s with
  | Option.none => Option.none
  | Option.some (ds, r1) =>
    match litCI "thread".data (skipWS r1) with
    | Option.some _ => Option.some ds.asString
    | Option.none => Option.none

/-- Attempt for `(\d+(?:\.\d+)?)\s*GHz\s*<word>` (`cpuhardware.py` lines
46-47, with `word` being `Base` or `Boost`) at one position. -/
def tryClock (word : List Char) (s : List Char) : Option String :=
  match numTok s with
  | Option.none => Option.none
  | Option.some (n, r1) =>
    match litCI "ghz".data (skipWS r1) with
    | Option.none => Option.none
    | Option.some r2 =>
      match litCI word (skipWS r2) with
      | Option.some _ => Option.some n.asString
      | Option.none => Option.none

/-- First alternative `Ryzen\s*\d+` of the series pattern (`cpuhardware.py`
line 48). -/
def tryRyzenAlt (s : List Char) : Option String :=
  match litCI "ryzen".data s with
  | Option.none => Option.none
  | Option.some r1 =>
    match takeWhile1 isDigitPy (skipWS r1) with
    | Option.some (_, r3) => Option.some (capSlice s r3)
    | Option.none => Option.none

/-- Second alternative `Core\s*i\d+` of the series pattern (`cpuhardware.py`
line 48). -/
def tryCoreiAlt (s : List Char) : Option String :=
  match litCI "core".data s with
  | Option.none => Option.none
  | Option.some r1 =>
    match litCI "i".data (skipWS r1) with
    | Option.none => Option.none
    | Option.some r2 =>
      match takeWhile1 isDigitPy r2 with
      | Option.some (_, r3) => Option.some (capSlice s r3)
      | Option.none => Option.none

/-- Attempt for `(Ryzen\s*\d+|Core\s*i\d+)` at one position; the
alternatives are tried in pattern order. -/
def trySeries (s : List Char) : Option String :=
  match tryRyzenAlt s with
  | Option.some g => Option.some g
  | Option.none => tryCoreiAlt s

/-- Matcher for the `Cores` rule of `AmazonCPUScraper.extract_specifications`;
the single capture group becomes a one-element group list. -/
def cpuCoresMatcher (s : String) : Option (List String) :=
  (searchCaps tryCores s.data).map (fun g => [g])

/-- Matcher for the `Threads` rule. -/
def cpuThreadsMatcher (s : String) : Option (List String) :=
  (searchCaps tryThreads s.data).map (fun g => [g])

/-- Matcher for the `Base Clock` rule. -/
def cpuBaseClockMatcher (s : String) : Option (List String) :=
  (searchCaps (tryClock "base".data) s.data).map (fun g => [g])

/-- Matcher for the `Boost Clock` rule. -/
def cpuBoostClockMatcher (s : String) : Option (List String) :=
  (searchCaps (tryClock "boost".data) s.data).map (fun g => [g])

/-- Matcher for the `Series` rule. -/
def cpuSeriesMatcher (s : String) : Option (List String) :=
  (searchCaps trySeries s.data).map (fun g => [g])

/-- The ordered rule table of `AmazonCPUScraper.extract_specifications`
(`cpuhardware.py` lines 43-49). -/
def cpu_spec_patterns : List ((String → Option (List String)) × String) :=
  [(cpuCoresMatcher, "Cores"),
   (cpuThreadsMatcher, "Threads"),
   (cpuBaseClockMatcher, "Base Clock"),
   (cpuBoostClockMatcher, "Boost Clock"),
   (cpuSeriesMatcher, "Series")]

/-- Storing policy of `cpuhardware.py` line 54: `match.group(1)`. -/
def storeGroup1 (gs : List String) : String :=
  gs.headD ""

/-- Storing policy of `laptopexcel.py` line 77: `' '.join(match.groups())`. -/
def storeJoin (gs : List String) : String :=
  String.intercalate " " gs

/-- The extraction loop shared by both extractors (`cpuhardware.py` lines
51-54, `laptopexcel.py` lines 73-77): apply each rule in order and store the
result of a successful match under the rule's label. -/
def extractFoldAux (store : List String → String) (desc : String) :
    List ((String → Option (List String)) × String) →
    List (String × String) → List (String × String)
  | [], acc => acc
  | r :: rs, acc =>
    extractFoldAux store desc rs
      (match r.1 desc with
       | Option.some gs => dictInsert r.2 (store gs) acc
       | Option.none => acc)

/-- Embedding of `AmazonCPUScraper.extract_specifications` (`cpuhardware.py`
lines 30-56). -/
def AmazonCPUScraper.extract_specifications (description : String) :
    List (String × String) :=
  extractFoldAux storeGroup1 description cpu_spec_patterns []

/-- Attempt for `(\d+)\s*جيجابايت\s*(?:رام|ذاكرة)` (`laptopexcel.py` line
64) at one position. -/
def tryRAM (s : List Char) : Option (List String) :=
  match takeWhile1 isDigitPy s with
  | Option.none => Option.none
  | Option.some (ds, r1) =>
    match litCI "جيجابايت".data (skipWS r1) with
    | Option.none => Option.none
    | Option.some r2 =>
      match litAlt ["رام".data, "ذاكرة".data] (skipWS r2) with
      | Option.some _ => Option.some [ds.asString]
      | Option.none => Option.none

/-- Attempt for `(\d+)\s*جيجابايت\s*SSD` (`laptopexcel.py` line 65) at one
position. -/
def trySSD (s : List Char) : Option (List String) :=
  match takeWhile1 isDigitPy s with
  | Option.none => Option.none
  | Option.some (ds, r1) =>
    match litCI "جيجابايت".data (skipWS r1) with
    | Option.none => Option.none
    | Option.some r2 =>
      match litCI "ssd".data (skipWS r2) with
      | Option.some _ => Option.some [ds.asString]
      | Option.none => Option.none

/-- Attempt for `(\d+)\s*تيرابايت\s*(?:قرص صلب|HDD)` (`laptopexcel.py` line
66) at one position. -/
def tryHDD (s : List Char) : Option (List String) :=
  match takeWhile1 isDigitPy s with
  | Option.none => Option.none
  | Option.some (ds, r1) =>
    match litCI "تيرابايت".data (skipWS r1) with
    | Option.none => Option.none
    | Option.some r2 =>
      match litAlt ["قرص صلب".data, "hdd".data] (skipWS r2) with
      | Option.some _ => Option.some [ds.asString]
      | Option.none => Option.none

/-- Attempt for `(إنتل|Intel|AMD)\s+(?:كور|Core|رايزن|Ryzen)\s*(\w+)`
(`laptopexcel.py` line 67) at one position; it has two capture groups. -/
def tryProc (s : List Char) : Option (List String) :=
  match litAlt ["إنتل".data, "intel".data, "amd".data] s with
  | Option.none => Option.none
  | Option.some r1 =>
    match ws1 r1 with
    | Option.none => Option.none
    | Option.some r2 =>
      match litAlt ["كور".data, "core".data, "رايزن".data, "ryzen".data] r2 with
      | Option.none => Option.none
      | Option.some r3 =>
        match takeWhile1 isWordPy (skipWS r3) with
        | Option.some (w, _) => Option.some [capSlice s r1, w.asString]
        | Option.none => Option.none

/-- Attempt for `(\d+(?:\.\d+)?)\s*(?:بوصة|inch)` (`laptopexcel.py` line 68)
at one position. -/
def tryScreen (s : List Char) : Option (List String) :=
  match numTok s with
  | Option.none => Option.none
  | Option.some (n, r1) =>
    match litAlt ["بوصة".data, "inch".data] (skipWS r1) with
    | Option.some _ => Option.some [n.asString]
    | Option.none => Option.none

/-- The alternative `ماك\s*أو\s*إس` of the operating-system pattern;
returns the rest of the input after it. -/
def tryMacAr (s : List Char) : Option (List Char) :=
  match litCI "ماك".data s with
  | Option.none => Option.none
  | Option.some r1 =>
    match litCI "أو".data (skipWS r1) with
    | Option.none => Option.none
    | Option.some r2 => litCI "إس".data (skipWS r2)

/-- Attempt for `(ويندوز|Windows|لينكس|Linux|ماك\s*أو\s*إس|MacOS)`
(`laptopexcel.py` line 69) at one position, alternatives in pattern
order. -/
def tryOS (s : List Char) : Option (List String) :=
  match litAlt ["ويندوز".data, "windows".data, "لينكس".data, "linux".data] s with
  | Option.some r => Option.some [capSlice s r]
  | Option.none =>
    match tryMacAr s with
    | Option.some r => Option.some [capSlice s r]
    | Option.none =>
      match litCI "macos".data s with
      | Option.some r => Option.some [capSlice s r]
      | Option.none => Option.none

/-- Matcher for the `RAM` rule of `LaptopScraper.extract_specifications`. -/
def laptopRAMMatcher (s : String) : Option (List String) :=
  searchCaps tryRAM s.data

/-- Matcher for the `SSD` rule. -/
def laptopSSDMatcher (s : String) : Option (List String) :=
  searchCaps trySSD s.data

/-- Matcher for the `HDD` rule. -/
def laptopHDDMatcher (s : String) : Option (List String) :=
  searchCaps tryHDD s.data

/-- Matcher for the `Processor` rule. -/
def laptopProcessorMatcher (s : String) : Option (List String) :=
  searchCaps tryProc s.data

/-- Matcher for the `Screen Size` rule. -/
def laptopScreenMatcher (s : String) : Option (List String) :=
  searchCaps tryScreen s.data

/-- Matcher for the `Operating System` rule. -/
def laptopOSMatcher (s : String) : Option (List String) :=
  searchCaps tryOS s.data

/-- The ordered rule table of `LaptopScraper.extract_specifications`
(`laptopexcel.py` lines 63-70). -/
def laptop_spec_patterns : List ((String → Option (List String)) × String) :=
  [(laptopRAMMatcher, "RAM"),
   (laptopSSDMatcher, "SSD"),
   (laptopHDDMatcher, "HDD"),
   (laptopProcessorMatcher, "Processor"),
   (laptopScreenMatcher, "Screen Size"),
   (laptopOSMatcher, "Operating System")]

/-- Embedding of `LaptopScraper.extract_specifications` (`laptopexcel.py`
lines 50-79). -/
def LaptopScraper.extract_specifications (description : String) :
    List (String × String) :=
  extractFoldAux storeJoin description laptop_spec_patterns []

/-- A constant token-set-ratio function, used to instantiate the abstract
`ratio` parameter on concrete examples. -/
def ratioConst (q : ℚ) : String → String → ℚ :=
  fun _ _ => q

/-- A concrete scraped product used in concrete evaluations. -/
def spRyzen : ScrapedProduct :=
  ⟨Option.some "AMD Ryzen 9", Option.some "10", []⟩

/-- A concrete catalog row whose serialized specs are malformed, so scoring
it raises a deserialization error. -/
def ceBadJson : CatalogEntry :=
  ⟨Option.some "bad row", Option.some "10", Option.some "oops"⟩

/-- A concrete well-formed catalog row (its specs field is NULL, which
deserializes to the empty map). -/
def cePlain : CatalogEntry :=
  ⟨Option.some "AMD Ryzen 9", Option.some "10", Option.none⟩

/-- Any value produced by the float parser is nonnegative: it is built from
digit strings only. -/
theorem pyFloatParse_nonneg (s : String) (q : ℚ)
    (h : pyFloatParse s = Option.some q) : 0 ≤ q := by
  unfold pyFloatParse at h
  split at h
  · split at h
    · cases h
      positivity
    · cases h
  · split at h
    · cases h
      positivity
    · cases h
  · cases h

/-- Shared concrete evaluation: with a constant ratio of 100, the plain
catalog row scores exactly 70 against `spRyzen` (name 100, specs 0,
price 100). -/
theorem score_spRyzen_cePlain :
    calculate_similarity_score (ratioConst 100) spRyzen cePlain = Except.ok 70 := by
  have hp : pyParsePrice (Option.some "10") = Option.some ((10 : Nat) : ℚ) := rfl
  have hprice : calculate_price_similarity (Option.some "10") (Option.some "10") = 100 := by
    simp only [calculate_price_similarity, hp]
    norm_num
  simp only [calculate_similarity_score, db_specs_of, cePlain, spRyzen,
    calculate_spec_similarity, name_similarity, ratioConst, List.isEmpty_nil,
    Bool.true_or, if_true, hprice, weighted_total, Except.ok.injEq]
  norm_num

/-- C3, counterexample.  The code divides the price difference by
`db_price or 1` (the catalog price itself when it is nonzero), not by
`max(catalog, 1)`: for scraped price "0.9" against catalog price "0.5" the
code yields 20 while the claimed formula yields 60. -/
theorem calculate_price_similarity_spec_formula_counterexample :
    pyParsePrice (Option.some "0.9") = Option.some (9 / 10) ∧
    pyParsePrice (Option.some "0.5") = Option.some (1 / 2) ∧
    calculate_price_similarity (Option.some "0.9") (Option.some "0.5") = 20 ∧
    price_similarity_spec_formula (9 / 10) (1 / 2) = 60 ∧
    calculate_price_similarity (Option.some "0.9") (Option.some "0.5") ≠
      price_similarity_spec_formula (9 / 10) (1 / 2) := by
  have h9 : pyParsePrice (Option.some "0.9") =
      Option.some (((0 : Nat) : ℚ) + ((9 : Nat) : ℚ) / (10 : ℚ) ^ (1 : Nat)) := rfl
  have h5 : pyParsePrice (Option.some "0.5") =
      Option.some (((0 : Nat) : ℚ) + ((5 : Nat) : ℚ) / (10 : ℚ) ^ (1 : Nat)) := rfl
  have h9q : pyParsePrice (Option.some "0.9") = Option.some (9 / 10) := by
    rw [h9]; norm_num
  have h5q : pyParsePrice (Option.some "0.5") = Option.some (1 / 2) := by
    rw [h5]; norm_num
  have habs : |(9 : ℚ) / 10 - 1 / 2| = 2 / 5 := by
    rw [abs_of_nonneg] <;> norm_num
  have hcode : calculate_price_similarity (Option.some "0.9") (Option.some "0.5") = 20 := by
    simp only [calculate_price_similarity, h9q, h5q]
    rw [if_neg (by norm_num), habs]
    norm_num
  have hspec : price_similarity_spec_formula (9 / 10) (1 / 2) = 60 := by
    unfold price_similarity_spec_formula
    rw [habs, max_eq_right (by norm_num)]
    norm_num
  refine ⟨h9q, h5q, hcode, hspec, ?_⟩
  rw [hcode, hspec]
  norm_num

/-- C3, amended.  Price similarity equals
`max 0 (100 − |scraped − catalog| / D × 100)` where the divisor `D` is the
catalog price when it is nonzero and 1 otherwise (Python `db_price or 1`);
and whenever either price string fails to parse, the similarity is 0 and no
error propagates. -/
theorem calculate_price_similarity_characterization :
    (∀ ps cs : Option String, ∀ s c : ℚ,
      pyParsePrice ps = Option.some s → pyParsePrice cs = Option.some c →
      calculate_price_similarity ps cs =
        max 0 (100 - |s - c| / (if c = 0 then 1 else c) * 100)) ∧
    (∀ ps cs : Option String,
      pyParsePrice ps = Option.none ∨ pyParsePrice cs = Option.none →
      calculate_price_similarity ps cs = 0) := by
  constructor
  · intro ps cs s c h1 h2
    simp only [calculate_price_similarity, h1, h2]
  · intro ps cs h
    rcases h with h | h
    · simp only [calculate_price_similarity, h]
    · simp only [calculate_price_similarity, h]
      rcases pyParsePrice ps with _ | v <;> rfl

/-- Witness for the amended C3 theorem at concrete prices. -/
theorem calculate_price_similarity_characterization_witness :
    pyParsePrice (Option.some "9") = Option.some ((9 : Nat) : ℚ) ∧
    pyParsePrice (Option.some "5") = Option.some ((5 : Nat) : ℚ) ∧
    calculate_price_similarity (Option.some "9") (Option.some "5") =
      max 0 (100 - |((9 : Nat) : ℚ) - ((5 : Nat) : ℚ)| /
        (if ((5 : Nat) : ℚ) = 0 then 1 else ((5 : Nat) : ℚ)) * 100) ∧
    pyParsePrice (Option.some "N/A") = Option.none ∧
    calculate_price_similarity (Option.some "N/A") (Option.some "5") = 0 :=
  ⟨rfl, rfl,
   calculate_price_similarity_characterization.1 _ _ _ _ rfl rfl,
   rfl,
   calculate_price_similarity_characterization.2 _ _ (Or.inl rfl)⟩

/-- C10.  When both price strings parse to the same numeric value (0
included), the price similarity is exactly 100. -/
theorem calculate_price_similarity_equal_values (ps cs : Option String) (v : ℚ)
    (h1 : pyParsePrice ps = Option.some v) (h2 : pyParsePrice cs = Option.some v) :
    calculate_price_similarity ps cs = 100 := by
  simp only [calculate_price_similarity, h1, h2, sub_self, abs_zero, zero_div,
    zero_mul, sub_zero]
  exact max_eq_right (by norm_num)

/-- Witness for C10 at equal zero prices written differently. -/
theorem calculate_price_similarity_equal_values_witness :
    pyParsePrice (Option.some "$0.00") =
      Option.some (((0 : Nat) : ℚ) + ((0 : Nat) : ℚ) / (10 : ℚ) ^ (2 : Nat)) ∧
    pyParsePrice (Option.some "0") =
      Option.some (((0 : Nat) : ℚ) + ((0 : Nat) : ℚ) / (10 : ℚ) ^ (2 : Nat)) ∧
    calculate_price_similarity (Option.some "$0.00") (Option.some "0") = 100 := by
  have h2 : pyParsePrice (Option.some "0") =
      Option.some (((0 : Nat) : ℚ) + ((0 : Nat) : ℚ) / (10 : ℚ) ^ (2 : Nat)) := by
    have : pyParsePrice (Option.some "0") = Option.some ((0 : Nat) : ℚ) := rfl
    rw [this]
    norm_num
  exact ⟨rfl, h2, calculate_price_similarity_equal_values _ _ _ rfl h2⟩

/-- C9, counterexample.  The integer 0 is falsy in Python, so
`normalize_text(0)` returns the empty string rather than the lowercased,
stripped, collapsed coercion `"0"` that the claim describes for every value
other than `None` and `""`. -/
theorem normalize_text_falsy_counterexample :
    normalize_text (PyVal.int 0) = "" ∧
    pySubNonWord (pyStrip (pyLower (pyStr (PyVal.int 0)))) = "0" ∧
    normalize_text (PyVal.int 0) ≠
      pySubNonWord (pyStrip (pyLower (pyStr (PyVal.int 0)))) := by
  refine ⟨rfl, by decide, by decide⟩

/-- C9, amended.  `normalize_text` is total: every falsy input (`None`, the
empty string, and also any other falsy value such as the integer 0) yields
the empty string, and every truthy input is coerced to a string, lowercased,
stripped, and its non-word runs collapsed to single spaces; no input
raises. -/
theorem normalize_text_total_characterization :
    (∀ t : PyVal, pyFalsy t = true → normalize_text t = "") ∧
    (∀ t : PyVal, pyFalsy t = false →
      normalize_text t = pySubNonWord (pyStrip (pyLower (pyStr t)))) ∧
    normalize_text PyVal.none = "" ∧
    normalize_text (PyVal.str "") = "" := by
  refine ⟨?_, ?_, rfl, rfl⟩
  · intro t h
    simp [normalize_text, h]
  · intro t h
    simp [normalize_text, h]

/-- Witness for the amended C9 theorem at concrete values. -/
theorem normalize_text_total_characterization_witness :
    pyFalsy (PyVal.str "") = true ∧
    normalize_text (PyVal.str "") = "" ∧
    pyFalsy (PyVal.str " Ryzen-9 ") = false ∧
    normalize_text (PyVal.str " Ryzen-9 ") =
      pySubNonWord (pyStrip (pyLower (pyStr (PyVal.str " Ryzen-9 ")))) :=
  ⟨rfl, normalize_text_total_characterization.1 _ rfl, rfl,
   normalize_text_total_characterization.2.1 _ rfl⟩

/-- C5.  The composite score is the fixed weighted sum
`0.5·name + 0.3·spec + 0.2·price`, and the weighted combination is
monotonically non-decreasing in each sub-score with the other two held
fixed. -/
theorem calculate_similarity_score_weighted_sum_monotone :
    (∀ ratio : String → String → ℚ, ∀ sp : ScrapedProduct, ∀ dp : CatalogEntry,
      ∀ dbs : List (String × String), db_specs_of dp = Except.ok dbs →
      calculate_similarity_score ratio sp dp =
        Except.ok ((1 / 2) * name_similarity ratio sp dp
          + (3 / 10) * calculate_spec_similarity ratio sp.specs dbs
          + (1 / 5) * calculate_price_similarity sp.price dp.price)) ∧
    (∀ n n2 s p : ℚ, n ≤ n2 → weighted_total n s p ≤ weighted_total n2 s p) ∧
    (∀ n s s2 p : ℚ, s ≤ s2 → weighted_total n s p ≤ weighted_total n s2 p) ∧
    (∀ n s p p2 : ℚ, p ≤ p2 → weighted_total n s p ≤ weighted_total n s p2) := by
  refine ⟨?_, ?_, ?_, ?_⟩
  · intro ratio sp dp dbs h
    simp only [calculate_similarity_score, h, weighted_total, Except.ok.injEq]
    ring
  · intro n n2 s p h
    unfold weighted_total
    linarith
  · intro n s s2 p h
    unfold weighted_total
    linarith
  · intro n s p p2 h
    unfold weighted_total
    linarith

/-- Witness for C5 at concrete inputs. -/
theorem calculate_similarity_score_weighted_sum_monotone_witness :
    db_specs_of cePlain = Except.ok [] ∧
    calculate_similarity_score (ratioConst 100) spRyzen cePlain =
      Except.ok ((1 / 2) * name_similarity (ratioConst 100) spRyzen cePlain
        + (3 / 10) * calculate_spec_similarity (ratioConst 100) spRyzen.specs []
        + (1 / 5) * calculate_price_similarity spRyzen.price cePlain.price) ∧
    (30 : ℚ) ≤ 40 ∧
    weighted_total 30 5 5 ≤ weighted_total 40 5 5 ∧
    weighted_total 5 30 5 ≤ weighted_total 5 40 5 ∧
    weighted_total 5 5 30 ≤ weighted_total 5 5 40 :=
  ⟨rfl,
   calculate_similarity_score_weighted_sum_monotone.1 _ _ _ _ rfl,
   by norm_num,
   calculate_similarity_score_weighted_sum_monotone.2.1 _ _ _ _ (by norm_num),
   calculate_similarity_score_weighted_sum_monotone.2.2.1 _ _ _ _ (by norm_num),
   calculate_similarity_score_weighted_sum_monotone.2.2.2 _ _ _ _ (by norm_num)⟩

/-- One step of the inner loop never decreases the running best. -/
theorem specStep_ge (ratio : String → String → ℚ) (nk nv : String)
    (b : ℚ) (dkv : String × String) : b ≤ specStep ratio nk nv b dkv := by
  unfold specStep
  split
  · exact le_max_left _ _
  · exact le_refl b

/-- The inner fold never goes below its initial value. -/
theorem specFold_ge_init (ratio : String → String → ℚ) (nk nv : String) :
    ∀ (dbs : List (String × String)) (b : ℚ),
      b ≤ dbs.foldl (specStep ratio nk nv) b := by
  intro dbs
  induction dbs with
  | nil => intro b; exact le_refl b
  | cons dkv t ih =>
    intro b
    rw [List.foldl_cons]
    exact le_trans (specStep_ge ratio nk nv b dkv) (ih _)

/-- The per-attribute best score is nonnegative (it starts from 0). -/
theorem specAttrBest_nonneg (ratio : String → String → ℚ) (nk nv : String)
    (dbs : List (String × String)) : 0 ≤ specAttrBest ratio nk nv dbs :=
  specFold_ge_init ratio nk nv dbs 0

/-- The inner fold stays at or below 100 when the ratio function is bounded
by 100. -/
theorem specFold_le_100 (ratio : String → String → ℚ) (nk nv : String)
    (h100 : ∀ a b, ratio a b ≤ 100) :
    ∀ (dbs : List (String × String)) (b : ℚ), b ≤ 100 →
      dbs.foldl (specStep ratio nk nv) b ≤ 100 := by
  intro dbs
  induction dbs with
  | nil => intro b hb; exact hb
  | cons dkv t ih =>
    intro b hb
    rw [List.foldl_cons]
    refine ih _ ?_
    unfold specStep
    split
    · exact max_le hb (h100 _ _)
    · exact hb

/-- Every accepted label pairing bounds the inner fold from below. -/
theorem specFold_ge_mem (ratio : String → String → ℚ) (nk nv : String) :
    ∀ (dbs : List (String × String)) (b : ℚ) (dkv : String × String),
      dkv ∈ dbs → 80 < ratio nk (normalize_text (.str dkv.1)) →
      ratio nv (normalize_text (.str dkv.2)) ≤ dbs.foldl (specStep ratio nk nv) b := by
  intro dbs
  induction dbs with
  | nil => intro b dkv h; cases h
  | cons a t ih =>
    intro b dkv hmem hpass
    rw [List.foldl_cons]
    rcases List.mem_cons.mp hmem with h | h
    · subst h
      refine le_trans ?_ (specFold_ge_init ratio nk nv t _)
      unfold specStep
      rw [if_pos hpass]
      exact le_max_right _ _
    · exact ih _ dkv h hpass

/-- The inner fold either keeps its initial value or returns the value
similarity of some accepted label pairing. -/
theorem specFold_attained (ratio : String → String → ℚ) (nk nv : String) :
    ∀ (dbs : List (String × String)) (b : ℚ),
      dbs.foldl (specStep ratio nk nv) b = b ∨
      ∃ dkv, dkv ∈ dbs ∧ 80 < ratio nk (normalize_text (.str dkv.1)) ∧
        dbs.foldl (specStep ratio nk nv) b = ratio nv (normalize_text (.str dkv.2)) := by
  intro dbs
  induction dbs with
  | nil => intro b; exact Or.inl rfl
  | cons a t ih =>
    intro b
    rw [List.foldl_cons]
    by_cases hp : 80 < ratio nk (normalize_text (.str a.1))
    · have hstep : specStep ratio nk nv b a =
          max b (ratio nv (normalize_text (.str a.2))) := by
        unfold specStep
        rw [if_pos hp]
      rcases ih (specStep ratio nk nv b a) with h | ⟨dkv, hmem, hpass, heq⟩
      · rw [h, hstep]
        rcases max_choice b (ratio nv (normalize_text (.str a.2))) with h2 | h2
        · exact Or.inl h2
        · exact Or.inr ⟨a, List.mem_cons_self a t, hp, h2⟩
      · exact Or.inr ⟨dkv, List.mem_cons_of_mem a hmem, hpass, heq⟩
    · have hstep : specStep ratio nk nv b a = b := by
        unfold specStep
        rw [if_neg hp]
      rw [hstep]
      rcases ih b with h | ⟨dkv, hmem, hpass, heq⟩
      · exact Or.inl h
      · exact Or.inr ⟨dkv, List.mem_cons_of_mem a hmem, hpass, heq⟩

/-- When no catalog label is accepted, the inner fold keeps its initial
value. -/
theorem specFold_no_pass (ratio : String → String → ℚ) (nk nv : String) :
    ∀ (dbs : List (String × String)) (b : ℚ),
      (∀ dkv ∈ dbs, ¬ 80 < ratio nk (normalize_text (.str dkv.1))) →
      dbs.foldl (specStep ratio nk nv) b = b := by
  intro dbs
  induction dbs with
  | nil => intro b _; rfl
  | cons a t ih =>
    intro b h
    rw [List.foldl_cons]
    have hstep : specStep ratio nk nv b a = b := by
      unfold specStep
      rw [if_neg (h a (List.mem_cons_self a t))]
    rw [hstep]
    exact ih b (fun dkv hd => h dkv (List.mem_cons_of_mem a hd))

/-- The spec similarity is always nonnegative. -/
theorem calculate_spec_similarity_nonneg (ratio : String → String → ℚ)
    (scraped dbs : List (String × String)) :
    0 ≤ calculate_spec_similarity ratio scraped dbs := by
  unfold calculate_spec_similarity
  split
  · exact le_refl 0
  · refine div_nonneg (List.sum_nonneg ?_) (Nat.cast_nonneg _)
    intro x hx
    rcases List.mem_map.mp hx with ⟨kv, _, rfl⟩
    exact specAttrBest_nonneg ratio _ _ dbs

/-- The spec similarity is at most 100 when the ratio function is bounded
by 100. -/
theorem calculate_spec_similarity_le_100 (ratio : String → String → ℚ)
    (h100 : ∀ a b, ratio a b ≤ 100)
    (scraped dbs : List (String × String)) :
    calculate_spec_similarity ratio scraped dbs ≤ 100 := by
  unfold calculate_spec_similarity
  split
  · norm_num
  · rename_i hne
    have hs : scraped ≠ [] := by
      intro h
      subst h
      simp at hne
    have hlen : (0 : ℚ) < (scraped.map (fun kv =>
        specAttrBest ratio (normalize_text (.str kv.1))
          (normalize_text (.str kv.2)) dbs)).length := by
      rw [List.length_map]
      exact_mod_cast List.length_pos.mpr hs
    rw [div_le_iff₀ hlen]
    have hb := List.sum_le_card_nsmul (scraped.map (fun kv =>
        specAttrBest ratio (normalize_text (.str kv.1))
          (normalize_text (.str kv.2)) dbs)) 100 ?_
    · calc _ ≤ _ := hb
      _ = _ := by
        rw [nsmul_eq_mul]
        ring
    · intro x hx
      rcases List.mem_map.mp hx with ⟨kv, _, rfl⟩
      exact specFold_le_100 ratio _ _ h100 dbs 0 (by norm_num)

/-- The per-attribute best score never decreases when the catalog map gains
extra attributes. -/
theorem specAttrBest_mono_append (ratio : String → String → ℚ) (nk nv : String)
    (dbs extra : List (String × String)) :
    specAttrBest ratio nk nv dbs ≤ specAttrBest ratio nk nv (dbs ++ extra) := by
  unfold specAttrBest
  rw [List.foldl_append]
  exact specFold_ge_init ratio nk nv extra _

/-- C4.  The spec similarity is the average over scraped attributes of the
per-attribute score; the per-attribute score is 0 when no catalog label
clears the 80 bar and otherwise is the maximum value similarity over
accepted label pairings (an upper bound that is attained); catalog-side
extra attributes never lower the result; and an empty map on either side
yields 0. -/
theorem calculate_spec_similarity_characterization :
    ∀ ratio : String → String → ℚ, (∀ a b, 0 ≤ ratio a b) →
    ∀ scraped dbs extra : List (String × String),
      ((scraped = [] ∨ dbs = []) → calculate_spec_similarity ratio scraped dbs = 0) ∧
      (scraped ≠ [] → dbs ≠ [] →
        calculate_spec_similarity ratio scraped dbs =
          (scraped.map (fun kv => specAttrBest ratio (normalize_text (.str kv.1))
              (normalize_text (.str kv.2)) dbs)).sum / (scraped.length : ℚ)) ∧
      (∀ nk nv : String,
        (∀ dkv ∈ dbs, ¬ 80 < ratio nk (normalize_text (.str dkv.1))) →
        specAttrBest ratio nk nv dbs = 0) ∧
      (∀ nk nv : String, ∀ dkv, dkv ∈ dbs →
        80 < ratio nk (normalize_text (.str dkv.1)) →
        ratio nv (normalize_text (.str dkv.2)) ≤ specAttrBest ratio nk nv dbs ∧
        ∃ dkv2, dkv2 ∈ dbs ∧ 80 < ratio nk (normalize_text (.str dkv2.1)) ∧
          specAttrBest ratio nk nv dbs = ratio nv (normalize_text (.str dkv2.2))) ∧
      calculate_spec_similarity ratio scraped dbs ≤
        calculate_spec_similarity ratio scraped (dbs ++ extra) := by
  intro ratio h0 scraped dbs extra
  refine ⟨?_, ?_, ?_, ?_, ?_⟩
  · intro h
    rcases h with h | h <;> subst h <;> simp [calculate_spec_similarity]
  · intro h1 h2
    unfold calculate_spec_similarity
    rw [if_neg (by simp [List.isEmpty_iff, h1, h2])]
    simp only [List.length_map]
  · intro nk nv h
    exact specFold_no_pass ratio nk nv dbs 0 h
  · intro nk nv dkv hmem hpass
    refine ⟨specFold_ge_mem ratio nk nv dbs 0 dkv hmem hpass, ?_⟩
    rcases specFold_attained ratio nk nv dbs 0 with h | ⟨dkv2, hm2, hp2, he2⟩
    · refine ⟨dkv, hmem, hpass, ?_⟩
      have hle := specFold_ge_mem ratio nk nv dbs 0 dkv hmem hpass
      rw [h] at hle
      have hzero : specAttrBest ratio nk nv dbs = 0 := h
      rw [hzero]
      exact (le_antisymm hle (h0 _ _)).symm
    · exact ⟨dkv2, hm2, hp2, he2⟩
  · rcases eq_or_ne scraped [] with hs | hs
    · subst hs
      simp [calculate_spec_similarity]
    · rcases eq_or_ne dbs [] with hd | hd
      · subst hd
        rw [List.nil_append]
        have h1 : calculate_spec_similarity ratio scraped [] = 0 := by
          simp [calculate_spec_similarity]
        rw [h1]
        exact calculate_spec_similarity_nonneg ratio scraped extra
      · unfold calculate_spec_similarity
        rw [if_neg (by simp [List.isEmpty_iff, hs, hd]),
          if_neg (by simp [List.isEmpty_iff, hs, hd])]
        simp only [List.length_map]
        have hlen : (0 : ℚ) < (scraped.length : ℚ) := by
          exact_mod_cast List.length_pos.mpr hs
        rw [div_le_div_iff_of_pos_right hlen]
        exact List.sum_le_sum (fun kv _ =>
          specAttrBest_mono_append ratio _ _ dbs extra)

/-- Witness for C4 at concrete maps and a concrete bounded ratio. -/
theorem calculate_spec_similarity_characterization_witness :
    (∀ a b : String, 0 ≤ ratioConst 90 a b) ∧
    (([("Cores", "12")] : List (String × String)) = [] ∨
        ([("core_count", "12")] : List (String × String)) = [] →
      calculate_spec_similarity (ratioConst 90) [("Cores", "12")] [("core_count", "12")] = 0) ∧
    (([("Cores", "12")] : List (String × String)) ≠ [] →
      ([("core_count", "12")] : List (String × String)) ≠ [] →
      calculate_spec_similarity (ratioConst 90) [("Cores", "12")] [("core_count", "12")] =
        (([("Cores", "12")] : List (String × String)).map (fun kv =>
          specAttrBest (ratioConst 90) (normalize_text (.str kv.1))
            (normalize_text (.str kv.2)) [("core_count", "12")])).sum /
          (([("Cores", "12")] : List (String × String)).length : ℚ)) ∧
    (∀ nk nv : String,
      (∀ dkv ∈ ([("core_count", "12")] : List (String × String)),
        ¬ 80 < ratioConst 90 nk (normalize_text (.str dkv.1))) →
      specAttrBest (ratioConst 90) nk nv [("core_count", "12")] = 0) ∧
    (∀ nk nv : String, ∀ dkv, dkv ∈ ([("core_count", "12")] : List (String × String)) →
      80 < ratioConst 90 nk (normalize_text (.str dkv.1)) →
      ratioConst 90 nv (normalize_text (.str dkv.2)) ≤
        specAttrBest (ratioConst 90) nk nv [("core_count", "12")] ∧
      ∃ dkv2, dkv2 ∈ ([("core_count", "12")] : List (String × String)) ∧
        80 < ratioConst 90 nk (normalize_text (.str dkv2.1)) ∧
        specAttrBest (ratioConst 90) nk nv [("core_count", "12")] =
          ratioConst 90 nv (normalize_text (.str dkv2.2))) ∧
    calculate_spec_similarity (ratioConst 90) [("Cores", "12")] [("core_count", "12")] ≤
      calculate_spec_similarity (ratioConst 90) [("Cores", "12")]
        ([("core_count", "12")] ++ [("Threads", "24")]) := by
  have h0 : ∀ a b : String, 0 ≤ ratioConst 90 a b := by
    intro a b
    norm_num [ratioConst]
  exact ⟨h0, calculate_spec_similarity_characterization (ratioConst 90) h0
    [("Cores", "12")] [("core_count", "12")] [("Threads", "24")]⟩

/-- Any parsed price value is nonnegative. -/
theorem pyParsePrice_nonneg (p : Option String) (v : ℚ)
    (h : pyParsePrice p = Option.some v) : 0 ≤ v :=
  pyFloatParse_nonneg _ _ h

/-- Price similarity is never negative. -/
theorem calculate_price_similarity_nonneg (a b : Option String) :
    0 ≤ calculate_price_similarity a b := by
  unfold calculate_price_similarity
  split
  · exact le_max_left _ _
  · exact le_refl 0

/-- Price similarity is never above 100: the difference percentage being
nonnegative, the divisor positive. -/
theorem calculate_price_similarity_le_100 (a b : Option String) :
    calculate_price_similarity a b ≤ 100 := by
  unfold calculate_price_similarity
  split
  · rename_i s d hs hd
    have hd0 : 0 ≤ d := pyParsePrice_nonneg b d hd
    have hden : 0 < (if d = 0 then 1 else d) := by
      split
      · norm_num
      · rename_i hne
        exact lt_of_le_of_ne hd0 (Ne.symm hne)
    have hpct : 0 ≤ |s - d| / (if d = 0 then 1 else d) * 100 :=
      mul_nonneg (div_nonneg (abs_nonneg _) hden.le) (by norm_num)
    exact max_le (by norm_num) (by linarith)
  · norm_num

/-- Every pair in a successfully built match list is a catalog member whose
score was computed without error and clears the threshold. -/
theorem buildMatches_mem (ratio : String → String → ℚ) (sp : ScrapedProduct)
    (thr : ℚ) :
    ∀ (l : List CatalogEntry) (ms : List (CatalogEntry × ℚ)),
      buildMatches ratio sp thr l = Except.ok ms →
      ∀ p ∈ ms, p.1 ∈ l ∧
        calculate_similarity_score ratio sp p.1 = Except.ok p.2 ∧ thr ≤ p.2 := by
  intro l
  induction l with
  | nil =>
    intro ms h p hp
    simp only [buildMatches, Except.ok.injEq] at h
    subst h
    cases hp
  | cons dp rest ih =>
    intro ms h p hp
    unfold buildMatches at h
    split at h
    · cases h
    · rename_i q hq
      split at h
      · cases h
      · rename_i ms2 hms2
        rw [Except.ok.injEq] at h
        subst h
        split at hp
        · rename_i hthr
          rcases List.mem_cons.mp hp with rfl | hmem
          · exact ⟨List.mem_cons_self dp rest, hq, hthr⟩
          · obtain ⟨h1, h2, h3⟩ := ih ms2 hms2 p hmem
            exact ⟨List.mem_cons_of_mem dp h1, h2, h3⟩
        · obtain ⟨h1, h2, h3⟩ := ih ms2 hms2 p hp
          exact ⟨List.mem_cons_of_mem dp h1, h2, h3⟩

/-- Every successfully scored catalog member at or above the threshold
appears in the built match list. -/
theorem buildMatches_complete (ratio : String → String → ℚ) (sp : ScrapedProduct)
    (thr : ℚ) :
    ∀ (l : List CatalogEntry) (ms : List (CatalogEntry × ℚ)),
      buildMatches ratio sp thr l = Except.ok ms →
      ∀ (dp : CatalogEntry) (q : ℚ), dp ∈ l →
        calculate_similarity_score ratio sp dp = Except.ok q → thr ≤ q →
        (dp, q) ∈ ms := by
  intro l
  induction l with
  | nil =>
    intro ms _ dp q hmem
    cases hmem
  | cons dp0 rest ih =>
    intro ms h dp q hmem hscore hthr
    unfold buildMatches at h
    split at h
    · cases h
    · rename_i q0 hq0
      split at h
      · cases h
      · rename_i ms2 hms2
        rw [Except.ok.injEq] at h
        subst h
        rcases List.mem_cons.mp hmem with rfl | hmem2
        · rw [hscore] at hq0
          rw [Except.ok.injEq] at hq0
          subst hq0
          rw [if_pos hthr]
          exact List.mem_cons_self _ _
        · have := ih ms2 hms2 dp q hmem2 hscore hthr
          split
          · exact List.mem_cons_of_mem _ this
          · exact this

/-- When every candidate scores without error, the match-building loop
succeeds. -/
theorem buildMatches_total_ok (ratio : String → String → ℚ) (sp : ScrapedProduct)
    (thr : ℚ) :
    ∀ l : List CatalogEntry,
      (∀ dp ∈ l, ∃ q, calculate_similarity_score ratio sp dp = Except.ok q) →
      ∃ ms, buildMatches ratio sp thr l = Except.ok ms := by
  intro l
  induction l with
  | nil => intro _; exact ⟨[], rfl⟩
  | cons dp rest ih =>
    intro h
    obtain ⟨q, hq⟩ := h dp (List.mem_cons_self dp rest)
    obtain ⟨ms, hms⟩ := ih (fun d hd => h d (List.mem_cons_of_mem dp hd))
    refine ⟨if thr ≤ q then (dp, q) :: ms else ms, ?_⟩
    unfold buildMatches
    rw [hq, hms]

/-- One failing candidate makes the whole match-building loop fail. -/
theorem buildMatches_error_of_mem (ratio : String → String → ℚ)
    (sp : ScrapedProduct) (thr : ℚ) :
    ∀ (l : List CatalogEntry) (dp : CatalogEntry) (e : String), dp ∈ l →
      calculate_similarity_score ratio sp dp = Except.error e →
      ∃ e2, buildMatches ratio sp thr l = Except.error e2 := by
  intro l
  induction l with
  | nil =>
    intro dp e hmem
    cases hmem
  | cons a rest ih =>
    intro dp e hmem hscore
    rcases List.mem_cons.mp hmem with rfl | hmem2
    · refine ⟨e, ?_⟩
      unfold buildMatches
      rw [hscore]
    · cases hsa : calculate_similarity_score ratio sp a with
      | error e0 =>
        refine ⟨e0, ?_⟩
        unfold buildMatches
        rw [hsa]
      | ok q =>
        obtain ⟨e2, h2⟩ := ih dp e hmem2 hscore
        refine ⟨e2, ?_⟩
        unfold buildMatches
        rw [hsa, h2]

/-- A failing match-building loop makes the whole body fail. -/
theorem findBestMatchBody_error (ratio : String → String → ℚ)
    (sp : ScrapedProduct) (thr : ℚ) (prods : List CatalogEntry) (e : String)
    (h : buildMatches ratio sp thr prods = Except.error e) :
    findBestMatchBody ratio sp thr (Except.ok prods) = Except.error e := by
  simp only [findBestMatchBody, h]

/-- The surrounding `try/except` turns any body failure into `None`. -/
theorem find_best_match_of_body_error (ratio : String → String → ℚ)
    (sp : ScrapedProduct) (thr : ℚ) (catalog : Except String (List CatalogEntry))
    (e : String) (h : findBestMatchBody ratio sp thr catalog = Except.error e) :
    find_best_match ratio sp thr catalog = Option.none := by
  unfold find_best_match
  rw [h]

/-- On a successfully built match list, `find_best_match` returns the head
of the descending stable sort, if any. -/
theorem find_best_match_eval (ratio : String → String → ℚ) (sp : ScrapedProduct)
    (thr : ℚ) (prods : List CatalogEntry) (ms : List (CatalogEntry × ℚ))
    (hms : buildMatches ratio sp thr prods = Except.ok ms) :
    find_best_match ratio sp thr (Except.ok prods) =
      (List.insertionSort matchGE ms).head? := by
  simp only [find_best_match, findBestMatchBody, hms]
  cases List.insertionSort matchGE ms <;> rfl

/-- The head of the descending sort bounds the score of every listed
match. -/
theorem sort_head_max (ms : List (CatalogEntry × ℚ)) (m : CatalogEntry × ℚ)
    (t : List (CatalogEntry × ℚ))
    (h : List.insertionSort matchGE ms = m :: t) :
    ∀ p ∈ ms, p.2 ≤ m.2 := by
  have hsorted := List.sorted_insertionSort matchGE ms
  have hperm := List.perm_insertionSort matchGE ms
  rw [h] at hsorted hperm
  intro p hp
  rcases List.mem_cons.mp (hperm.symm.subset hp) with rfl | hmem
  · exact le_refl _
  · exact (List.sorted_cons.mp hsorted).1 p hmem

/-- C2.  `find_best_match` returns an entry only when its composite score
was computed, is at or above the threshold, and is maximal among all
successfully scored candidates; it returns the annotated score; and it
returns none exactly when no candidate clears the threshold (all candidates
assumed to score without error). -/
theorem find_best_match_threshold_and_maximality :
    ∀ (ratio : String → String → ℚ) (sp : ScrapedProduct) (thr : ℚ)
      (prods : List CatalogEntry),
      (∀ dp ∈ prods, ∃ q, calculate_similarity_score ratio sp dp = Except.ok q) →
      (∀ (dp : CatalogEntry) (q : ℚ),
        find_best_match ratio sp thr (Except.ok prods) = Option.some (dp, q) →
        dp ∈ prods ∧ calculate_similarity_score ratio sp dp = Except.ok q ∧
        thr ≤ q ∧
        ∀ (dp2 : CatalogEntry) (q2 : ℚ), dp2 ∈ prods →
          calculate_similarity_score ratio sp dp2 = Except.ok q2 → q2 ≤ q) ∧
      ((∀ (dp : CatalogEntry) (q : ℚ), dp ∈ prods →
          calculate_similarity_score ratio sp dp = Except.ok q → q < thr) →
        find_best_match ratio sp thr (Except.ok prods) = Option.none) ∧
      ((∃ (dp : CatalogEntry) (q : ℚ), dp ∈ prods ∧
          calculate_similarity_score ratio sp dp = Except.ok q ∧ thr ≤ q) →
        (find_best_match ratio sp thr (Except.ok prods)).isSome = true) := by
  intro ratio sp thr prods hall
  obtain ⟨ms, hms⟩ := buildMatches_total_ok ratio sp thr prods hall
  have heval := find_best_match_eval ratio sp thr prods ms hms
  refine ⟨?_, ?_, ?_⟩
  · intro dp q hsome
    rw [heval] at hsome
    cases hsort : List.insertionSort matchGE ms with
    | nil =>
      rw [hsort] at hsome
      cases hsome
    | cons m t =>
      rw [hsort] at hsome
      simp only [List.head?_cons, Option.some.injEq] at hsome
      subst hsome
      have hperm := List.perm_insertionSort matchGE ms
      rw [hsort] at hperm
      have hmmem : (dp, q) ∈ ms := hperm.subset (List.mem_cons_self _ _)
      obtain ⟨h1, h2, h3⟩ := buildMatches_mem ratio sp thr prods ms hms _ hmmem
      refine ⟨h1, h2, h3, ?_⟩
      intro dp2 q2 hm2 hs2
      by_cases hq2 : thr ≤ q2
      · have hin : (dp2, q2) ∈ ms :=
          buildMatches_complete ratio sp thr prods ms hms dp2 q2 hm2 hs2 hq2
        exact sort_head_max ms (dp, q) t hsort (dp2, q2) hin
      · exact le_trans (le_of_lt (not_le.mp hq2)) h3
  · intro hlt
    rw [heval]
    cases hsort : List.insertionSort matchGE ms with
    | nil => rfl
    | cons m t =>
      have hperm := List.perm_insertionSort matchGE ms
      rw [hsort] at hperm
      have hmmem : m ∈ ms := hperm.subset (List.mem_cons_self _ _)
      obtain ⟨h1, h2, h3⟩ := buildMatches_mem ratio sp thr prods ms hms m hmmem
      exact absurd h3 (not_le.mpr (hlt m.1 m.2 h1 h2))
  · rintro ⟨dp, q, hmem, hs, hthr⟩
    have hin : (dp, q) ∈ ms :=
      buildMatches_complete ratio sp thr prods ms hms dp q hmem hs hthr
    rw [heval]
    cases hsort : List.insertionSort matchGE ms with
    | nil =>
      have hperm := List.perm_insertionSort matchGE ms
      rw [hsort] at hperm
      cases hperm.symm.subset hin
    | cons m t => rfl

/-- Witness for C2 on a one-row catalog where every candidate scores. -/
theorem find_best_match_threshold_and_maximality_witness :
    (∀ dp ∈ [cePlain], ∃ q,
      calculate_similarity_score (ratioConst 100) spRyzen dp = Except.ok q) ∧
    ((∀ (dp : CatalogEntry) (q : ℚ),
        find_best_match (ratioConst 100) spRyzen 70 (Except.ok [cePlain]) =
          Option.some (dp, q) →
        dp ∈ [cePlain] ∧
        calculate_similarity_score (ratioConst 100) spRyzen dp = Except.ok q ∧
        70 ≤ q ∧
        ∀ (dp2 : CatalogEntry) (q2 : ℚ), dp2 ∈ [cePlain] →
          calculate_similarity_score (ratioConst 100) spRyzen dp2 = Except.ok q2 →
          q2 ≤ q) ∧
      ((∀ (dp : CatalogEntry) (q : ℚ), dp ∈ [cePlain] →
          calculate_similarity_score (ratioConst 100) spRyzen dp = Except.ok q →
          q < 70) →
        find_best_match (ratioConst 100) spRyzen 70 (Except.ok [cePlain]) =
          Option.none) ∧
      ((∃ (dp : CatalogEntry) (q : ℚ), dp ∈ [cePlain] ∧
          calculate_similarity_score (ratioConst 100) spRyzen dp = Except.ok q ∧
          70 ≤ q) →
        (find_best_match (ratioConst 100) spRyzen 70
          (Except.ok [cePlain])).isSome = true)) := by
  have hall : ∀ dp ∈ [cePlain], ∃ q,
      calculate_similarity_score (ratioConst 100) spRyzen dp = Except.ok q := by
    intro dp hdp
    rw [List.mem_singleton] at hdp
    subst hdp
    exact ⟨70, score_spRyzen_cePlain⟩
  exact ⟨hall,
    find_best_match_threshold_and_maximality (ratioConst 100) spRyzen 70 [cePlain] hall⟩

/-- C7.  With a ratio function bounded in [0,100] (as
`fuzz.token_set_ratio` is), every computed composite score lies in [0,100],
and hence so does the score annotated on any returned match. -/
theorem calculate_similarity_score_range :
    ∀ ratio : String → String → ℚ,
      (∀ a b : String, 0 ≤ ratio a b ∧ ratio a b ≤ 100) →
      (∀ (sp : ScrapedProduct) (dp : CatalogEntry) (q : ℚ),
        calculate_similarity_score ratio sp dp = Except.ok q →
        0 ≤ q ∧ q ≤ 100) ∧
      (∀ (sp : ScrapedProduct) (thr : ℚ)
        (catalog : Except String (List CatalogEntry))
        (dp : CatalogEntry) (q : ℚ),
        find_best_match ratio sp thr catalog = Option.some (dp, q) →
        0 ≤ q ∧ q ≤ 100) := by
  intro ratio hb
  have hscore : ∀ (sp : ScrapedProduct) (dp : CatalogEntry) (q : ℚ),
      calculate_similarity_score ratio sp dp = Except.ok q →
      0 ≤ q ∧ q ≤ 100 := by
    intro sp dp q h
    unfold calculate_similarity_score at h
    split at h
    · cases h
    · rename_i dbs _
      rw [Except.ok.injEq] at h
      subst h
      have hn := hb (normalize_text (pvOfOpt sp.name)) (normalize_text (pvOfOpt dp.name))
      have hs0 := calculate_spec_similarity_nonneg ratio sp.specs dbs
      have hs1 := calculate_spec_similarity_le_100 ratio (fun a b => (hb a b).2) sp.specs dbs
      have hp0 := calculate_price_similarity_nonneg sp.price dp.price
      have hp1 := calculate_price_similarity_le_100 sp.price dp.price
      unfold weighted_total name_similarity
      constructor <;> nlinarith [hn.1, hn.2]
  refine ⟨hscore, ?_⟩
  intro sp thr catalog dp q h
  cases catalog with
  | error e =>
    have : find_best_match ratio sp thr (Except.error e) = Option.none := rfl
    rw [this] at h
    cases h
  | ok prods =>
    cases hbm : buildMatches ratio sp thr prods with
    | error e =>
      rw [find_best_match_of_body_error ratio sp thr _ e
        (findBestMatchBody_error ratio sp thr prods e hbm)] at h
      cases h
    | ok ms =>
      rw [find_best_match_eval ratio sp thr prods ms hbm] at h
      cases hsort : List.insertionSort matchGE ms with
      | nil =>
        rw [hsort] at h
        cases h
      | cons m t =>
        rw [hsort] at h
        simp only [List.head?_cons, Option.some.injEq] at h
        subst h
        have hperm := List.perm_insertionSort matchGE ms
        rw [hsort] at hperm
        have hmmem : (dp, q) ∈ ms := hperm.subset (List.mem_cons_self _ _)
        obtain ⟨_, h2, _⟩ := buildMatches_mem ratio sp thr prods ms hbm _ hmmem
        exact hscore sp _ _ h2

/-- Witness for C7 with a concrete bounded ratio function. -/
theorem calculate_similarity_score_range_witness :
    (∀ a b : String, 0 ≤ ratioConst 100 a b ∧ ratioConst 100 a b ≤ 100) ∧
    ((∀ (sp : ScrapedProduct) (dp : CatalogEntry) (q : ℚ),
        calculate_similarity_score (ratioConst 100) sp dp = Except.ok q →
        0 ≤ q ∧ q ≤ 100) ∧
      (∀ (sp : ScrapedProduct) (thr : ℚ)
        (catalog : Except String (List CatalogEntry))
        (dp : CatalogEntry) (q : ℚ),
        find_best_match (ratioConst 100) sp thr catalog = Option.some (dp, q) →
        0 ≤ q ∧ q ≤ 100)) := by
  have hb : ∀ a b : String, 0 ≤ ratioConst 100 a b ∧ ratioConst 100 a b ≤ 100 := by
    intro a b
    norm_num [ratioConst]
  exact ⟨hb, calculate_similarity_score_range (ratioConst 100) hb⟩

/-- C8.  `find_best_match` never propagates an exception: a failed catalog
read returns `None`, and any body failure (including one caused by a
malformed candidate) returns `None`, with no separate error signal. -/
theorem find_best_match_never_propagates :
    (∀ (ratio : String → String → ℚ) (sp : ScrapedProduct) (thr : ℚ) (e : String),
      find_best_match ratio sp thr (Except.error e) = Option.none) ∧
    (∀ (ratio : String → String → ℚ) (sp : ScrapedProduct) (thr : ℚ)
      (catalog : Except String (List CatalogEntry)) (e : String),
      findBestMatchBody ratio sp thr catalog = Except.error e →
      find_best_match ratio sp thr catalog = Option.none) := by
  constructor
  · intro ratio sp thr e
    rfl
  · intro ratio sp thr catalog e h
    unfold find_best_match
    rw [h]

/-- Witness for C8: a failing catalog read yields `None`. -/
theorem find_best_match_never_propagates_witness :
    findBestMatchBody (ratioConst 100) spRyzen 70 (Except.error "db down") =
      Except.error "db down" ∧
    find_best_match (ratioConst 100) spRyzen 70 (Except.error "db down") =
      Option.none :=
  ⟨rfl, find_best_match_never_propagates.2 (ratioConst 100) spRyzen 70 _ _ rfl⟩

/-- C1, counterexample.  With the malformed row listed before a well-formed
row that scores exactly the default threshold, the whole search aborts and
returns `None` instead of returning the well-formed candidate. -/
theorem find_best_match_candidate_fault_counterexample :
    calculate_similarity_score (ratioConst 100) spRyzen ceBadJson =
      Except.error "json" ∧
    calculate_similarity_score (ratioConst 100) spRyzen cePlain = Except.ok 70 ∧
    default_similarity_threshold ≤ 70 ∧
    find_best_match (ratioConst 100) spRyzen default_similarity_threshold
      (Except.ok [ceBadJson, cePlain]) = Option.none :=
  ⟨rfl, score_spRyzen_cePlain, by norm_num [default_similarity_threshold], rfl⟩

/-- C1, amended.  An exception while scoring any single candidate is caught
only by the whole-search handler: `find_best_match` then returns `None`,
evaluating no further candidates and returning no partial ranking. -/
theorem find_best_match_aborts_on_candidate_fault :
    ∀ (ratio : String → String → ℚ) (sp : ScrapedProduct) (thr : ℚ)
      (prods : List CatalogEntry) (dp : CatalogEntry) (e : String),
      dp ∈ prods → calculate_similarity_score ratio sp dp = Except.error e →
      find_best_match ratio sp thr (Except.ok prods) = Option.none := by
  intro ratio sp thr prods dp e hmem hs
  obtain ⟨e2, h2⟩ := buildMatches_error_of_mem ratio sp thr prods dp e hmem hs
  exact find_best_match_of_body_error ratio sp thr _ e2
    (findBestMatchBody_error ratio sp thr prods e2 h2)

/-- Witness for the amended C1 theorem: the malformed row aborts the search
even when listed after a well-formed candidate. -/
theorem find_best_match_aborts_on_candidate_fault_witness :
    ceBadJson ∈ [cePlain, ceBadJson] ∧
    calculate_similarity_score (ratioConst 100) spRyzen ceBadJson =
      Except.error "json" ∧
    find_best_match (ratioConst 100) spRyzen 70 (Except.ok [cePlain, ceBadJson]) =
      Option.none :=
  ⟨by simp, rfl,
   find_best_match_aborts_on_candidate_fault (ratioConst 100) spRyzen 70
     [cePlain, ceBadJson] ceBadJson "json" (by simp) rfl⟩

/-- Looking up a key just inserted into a Python-style dict finds the new
value. -/
theorem assocLookup_dictInsert_self (k v : String) :
    ∀ l : List (String × String),
      assocLookup k (dictInsert k v l) = Option.some v := by
  intro l
  induction l with
  | nil => simp [dictInsert, assocLookup]
  | cons kv t ih =>
    rcases kv with ⟨k1, v1⟩
    unfold dictInsert
    by_cases h : k1 = k
    · rw [if_pos h]
      unfold assocLookup
      rw [if_pos h]
    · rw [if_neg h]
      unfold assocLookup
      rw [if_neg h]
      exact ih

/-- Inserting under a different key does not change a lookup. -/
theorem assocLookup_dictInsert_ne (k k2 v : String) (hne : k2 ≠ k) :
    ∀ l : List (String × String),
      assocLookup k (dictInsert k2 v l) = assocLookup k l := by
  intro l
  induction l with
  | nil => simp [dictInsert, assocLookup, hne]
  | cons kv t ih =>
    rcases kv with ⟨k1, v1⟩
    unfold dictInsert
    by_cases h : k1 = k2
    · rw [if_pos h]
      subst h
      unfold assocLookup
      rw [if_neg hne, if_neg hne]
    · rw [if_neg h]
      unfold assocLookup
      by_cases h2 : k1 = k
      · rw [if_pos h2, if_pos h2]
      · rw [if_neg h2, if_neg h2]
        exact ih

/-- Rules whose labels differ from `lbl` leave the lookup of `lbl`
unchanged through the extraction loop. -/
theorem extractFoldAux_lookup_notmem (store : List String → String) (desc : String) :
    ∀ (rs : List ((String → Option (List String)) × String))
      (acc : List (String × String)) (lbl : String),
      lbl ∉ rs.map Prod.snd →
      assocLookup lbl (extractFoldAux store desc rs acc) = assocLookup lbl acc := by
  intro rs
  induction rs with
  | nil => intro acc lbl _; rfl
  | cons r rest ih =>
    intro acc lbl h
    rw [List.map_cons, List.mem_cons] at h
    push_neg at h
    unfold extractFoldAux
    rw [ih _ _ h.2]
    cases hm : r.1 desc with
    | none => rfl
    | some gs => exact assocLookup_dictInsert_ne lbl r.2 (store gs) (Ne.symm h.1) acc

/-- With pairwise distinct labels, the extraction loop stores exactly the
result of the rule owning `lbl`, when that rule matches, and touches nothing
under `lbl` otherwise. -/
theorem extractFoldAux_lookup_mem (store : List String → String) (desc : String) :
    ∀ (rs : List ((String → Option (List String)) × String))
      (acc : List (String × String))
      (m : String → Option (List String)) (lbl : String),
      (m, lbl) ∈ rs → (rs.map Prod.snd).Nodup →
      assocLookup lbl (extractFoldAux store desc rs acc) =
        (match m desc with
         | Option.some gs => Option.some (store gs)
         | Option.none => assocLookup lbl acc) := by
  intro rs
  induction rs with
  | nil =>
    intro acc m lbl h
    cases h
  | cons r rest ih =>
    intro acc m lbl hmem hnd
    obtain ⟨rm, rl⟩ := r
    rw [List.map_cons, List.nodup_cons] at hnd
    dsimp only at hnd
    rcases List.mem_cons.mp hmem with heq | hmem2
    · rw [Prod.mk.injEq] at heq
      obtain ⟨hm1, hl1⟩ := heq
      subst hm1
      subst hl1
      unfold extractFoldAux
      dsimp only
      rw [extractFoldAux_lookup_notmem store desc rest _ lbl hnd.1]
      cases hm : m desc with
      | some gs =>
        simp only [hm]
        exact assocLookup_dictInsert_self lbl (store gs) acc
      | none =>
        simp only [hm]
    · have hne : rl ≠ lbl := by
        intro h
        subst h
        exact hnd.1 (by simpa using List.mem_map_of_mem Prod.snd hmem2)
      unfold extractFoldAux
      dsimp only
      rw [ih _ m lbl hmem2 hnd.2]
      cases hm : m desc with
      | some gs => simp only [hm]
      | none =>
        simp only [hm]
        cases hrm : rm desc with
        | some gs2 =>
          simp only [hrm]
          exact assocLookup_dictInsert_ne lbl rl (store gs2) hne acc
        | none => simp only [hrm]

/-- Every matcher of the CPU rule table embeds a pattern with exactly one
capture group: a successful match carries a one-element group list. -/
theorem cpu_matcher_single (m : String → Option (List String)) (lbl : String)
    (hmem : (m, lbl) ∈ cpu_spec_patterns) (s : String) (gs : List String)
    (h : m s = Option.some gs) : ∃ g, gs = [g] := by
  simp only [cpu_spec_patterns, List.mem_cons, List.not_mem_nil, or_false,
    Prod.mk.injEq] at hmem
  rcases hmem with ⟨hm, _⟩ | ⟨hm, _⟩ | ⟨hm, _⟩ | ⟨hm, _⟩ | ⟨hm, _⟩ <;> subst hm <;>
    [unfold cpuCoresMatcher at h; unfold cpuThreadsMatcher at h;
     unfold cpuBaseClockMatcher at h; unfold cpuBoostClockMatcher at h;
     unfold cpuSeriesMatcher at h] <;>
    · rcases Option.map_eq_some'.mp h with ⟨g, _, hg⟩
      exact ⟨g, hg.symm⟩

/-- Joining a one-element group list with spaces gives back the group. -/
theorem intercalate_single (g : String) : String.intercalate " " [g] = g := rfl

/-- C6.  For either extractor and its ordered rule table: when a rule's
pattern matches the description (case-insensitively, at the first
occurrence), the result map holds the captured groups joined with a single
space under the rule's label; when the pattern does not match, the map has
no entry under that label. -/
theorem extract_specifications_rule_semantics :
    ∀ desc : String,
      (∀ (m : String → Option (List String)) (lbl : String),
        (m, lbl) ∈ cpu_spec_patterns →
        (∀ gs, m desc = Option.some gs →
          assocLookup lbl (AmazonCPUScraper.extract_specifications desc) =
            Option.some (String.intercalate " " gs)) ∧
        (m desc = Option.none →
          assocLookup lbl (AmazonCPUScraper.extract_specifications desc) =
            Option.none)) ∧
      (∀ (m : String → Option (List String)) (lbl : String),
        (m, lbl) ∈ laptop_spec_patterns →
        (∀ gs, m desc = Option.some gs →
          assocLookup lbl (LaptopScraper.extract_specifications desc) =
            Option.some (String.intercalate " " gs)) ∧
        (m desc = Option.none →
          assocLookup lbl (LaptopScraper.extract_specifications desc) =
            Option.none)) := by
  intro desc
  constructor
  · intro m lbl hmem
    have hnd : (cpu_spec_patterns.map Prod.snd).Nodup := by
      simp [cpu_spec_patterns]
    have hbase := extractFoldAux_lookup_mem storeGroup1 desc cpu_spec_patterns [] m lbl hmem hnd
    constructor
    · intro gs hgs
      obtain ⟨g, rfl⟩ := cpu_matcher_single m lbl hmem desc gs hgs
      unfold AmazonCPUScraper.extract_specifications
      rw [hbase, hgs, intercalate_single]
      rfl
    · intro hnone
      unfold AmazonCPUScraper.extract_specifications
      rw [hbase, hnone]
      rfl
  · intro m lbl hmem
    have hnd : (laptop_spec_patterns.map Prod.snd).Nodup := by
      simp [laptop_spec_patterns]
    have hbase := extractFoldAux_lookup_mem storeJoin desc laptop_spec_patterns [] m lbl hmem hnd
    constructor
    · intro gs hgs
      unfold LaptopScraper.extract_specifications
      rw [hbase, hgs]
      rfl
    · intro hnone
      unfold LaptopScraper.extract_specifications
      rw [hbase, hnone]
      rfl

/-- Witness for C6 on a concrete CPU description and a concrete laptop
description. -/
theorem extract_specifications_rule_semantics_witness :
    (cpuCoresMatcher, "Cores") ∈ cpu_spec_patterns ∧
    cpuCoresMatcher "AMD CPU with 8 Cores inside" = Option.some ["8"] ∧
    assocLookup "Cores"
      (AmazonCPUScraper.extract_specifications "AMD CPU with 8 Cores inside") =
      Option.some (String.intercalate " " ["8"]) ∧
    (laptopOSMatcher, "Operating System") ∈ laptop_spec_patterns ∧
    laptopOSMatcher "Laptop with Windows 11" = Option.some ["Windows"] ∧
    assocLookup "Operating System"
      (LaptopScraper.extract_specifications "Laptop with Windows 11") =
      Option.some (String.intercalate " " ["Windows"]) := by
  have h1 : (cpuCoresMatcher, "Cores") ∈ cpu_spec_patterns := by
    simp [cpu_spec_patterns]
  have h2 : cpuCoresMatcher "AMD CPU with 8 Cores inside" = Option.some ["8"] := by
    decide
  have h4 : (laptopOSMatcher, "Operating System") ∈ laptop_spec_patterns := by
    simp [laptop_spec_patterns]
  have h5 : laptopOSMatcher "Laptop with Windows 11" = Option.some ["Windows"] := by
    decide
  exact ⟨h1, h2,
    ((extract_specifications_rule_semantics "AMD CPU with 8 Cores inside").1
      cpuCoresMatcher "Cores" h1).1 ["8"] h2,
    h4, h5,
    ((extract_specifications_rule_semantics "Laptop with Windows 11").2
      laptopOSMatcher "Operating System" h4).1 ["Windows"] h5⟩

end Scraping
